import Mathlib

/-
  Formal model of the c4d-music-particles core (audio analysis, beat
  detection, morph state machine, per-frame particle update).

  Numeric JavaScript values are modelled as rationals (ℚ); the one place
  where the source computes a square root (three.js Vector3.normalize inside
  curlNoise) is modelled over the reals (ℝ).  Comparisons of the form
  sqrt s > r with r ≥ 0 are rephrased as s > r * r, which is equivalent.

  Sources:
  - AudioAnalyzer (src/src/main.js, enhanced version): band smoothing,
    band index boundaries, _bandAverage, _detectBeat.
  - ParticleSystem (src/src/ParticleSystem.js): curlNoise, the scalar
    morphTarget state machine inside update, toggleMorph (defined twice in
    the class body; per JavaScript semantics the later definition wins).
  - ParticleSystem (src/unnamed/part_000, shader version): the inline
    Perlin noise3D, _buildTargetPositions, toggleMorph and the per-frame
    update with per-particle morph factors.
-/

/- ===================================================================
   AudioAnalyzer._detectBeat (src/src/main.js lines 788-814)
   =================================================================== -/

/-- this.beatThreshold = 0.45 -/
def beatThreshold : ℚ := 9/20

/-- this.beatDecay = 0.98 -/
def beatDecay : ℚ := 49/50

/-- this.beatMinInterval = 200 (ms between beats) -/
def beatMinInterval : ℚ := 200

/-- this.energyHistoryMax = 60 (about 1 s at 60 fps) -/
def energyHistoryMax : ℕ := 60

/-- The beat-detection state of AudioAnalyzer: lastBeatTime, beatEnergy,
energyHistory and the isBeat flag. -/
structure BeatState where
  lastBeatTime : ℚ
  beatEnergy : ℚ
  energyHistory : List ℚ
  isBeat : Bool
deriving DecidableEq

/-- Push the current energy sample into the history and evict the oldest
sample if the buffer exceeds its capacity:
`this.energyHistory.push(energy); if (length > max) shift();`. -/
def pushHistory (h : List ℚ) (e : ℚ) : List ℚ :=
  let h0 := h ++ [e]
  if h0.length > energyHistoryMax then h0.drop 1 else h0

/-- Arithmetic mean of a list, as in
`this.energyHistory.reduce((a, b) => a + b, 0) / this.energyHistory.length`. -/
def meanQ (l : List ℚ) : ℚ := l.sum / (l.length : ℚ)

/-- `adaptiveThreshold = Math.max(this.beatThreshold, avg * 1.4)`. -/
def adaptiveThresholdOf (hist : List ℚ) : ℚ :=
  max beatThreshold (meanQ hist * (7/5))

/-- The boolean condition of the `if` in _detectBeat:
`energy > adaptiveThreshold && energy > this.beatEnergy &&
 now - this.lastBeatTime > this.beatMinInterval`. -/
def beatCondB (s : BeatState) (energy now : ℚ) : Bool :=
  decide (energy > adaptiveThresholdOf (pushHistory s.energyHistory energy)) &&
  decide (energy > s.beatEnergy) &&
  decide (now - s.lastBeatTime > beatMinInterval)

/-- One call to AudioAnalyzer._detectBeat(energy), with `now` the value of
performance.now() on this frame.  On a beat the current time is stored in
lastBeatTime; in every case `this.beatEnergy = energy * this.beatDecay`
is executed at the end of the call. -/
def detectBeat (s : BeatState) (energy now : ℚ) : BeatState :=
  { lastBeatTime := if beatCondB s energy now then now else s.lastBeatTime
    beatEnergy := energy * beatDecay
    energyHistory := pushHistory s.energyHistory energy
    isBeat := beatCondB s energy now }

/-- The constructor state of the beat detector: lastBeatTime = 0,
beatEnergy = 0, empty history, isBeat = false. -/
def dInit : BeatState :=
  { lastBeatTime := 0, beatEnergy := 0, energyHistory := [], isBeat := false }

/-- Run the detector over a list of (energy, now) frames. -/
def runDetect (s : BeatState) (l : List (ℚ × ℚ)) : BeatState :=
  l.foldl (fun st p => detectBeat st p.1 p.2) s

/-- A beat is signaled on frame k of the input sequence l. -/
def beatAt (l : List (ℚ × ℚ)) (k : ℕ) : Prop :=
  (runDetect dInit (l.take (k + 1))).isBeat = true

instance (l : List (ℚ × ℚ)) (k : ℕ) : Decidable (beatAt l k) := by
  unfold beatAt; infer_instance

/-- The condition of the spec sentence describing a signaled beat, stated
with the three conjuncts of section 4.3: current energy above the adaptive
threshold max(staticMinimumThreshold, mean(buffer) * sensitivityMultiplier),
current energy above the decaying last-beat-energy tracker, and elapsed
time since the last signaled beat above the refractory interval. -/
def beatSpec (s : BeatState) (energy now : ℚ) : Prop :=
  energy > max beatThreshold (meanQ (pushHistory s.energyHistory energy) * (7/5)) ∧
  energy > s.beatEnergy ∧
  now - s.lastBeatTime > beatMinInterval

/-- A concrete frame sequence (energy, time): two quiet frames, a spike,
a quiet frame, a second spike.  Beats fire on frames 1 and 3. -/
def beatInputsA : List (ℚ × ℚ) :=
  [(1/10, 0), (1, 300), (1/10, 600), (1, 900)]

/-- beatInputsA followed by a silent frame at t = 1200. -/
def beatInputsB : List (ℚ × ℚ) := beatInputsA ++ [(0, 1200)]

/- ===================================================================
   AudioAnalyzer.update: band smoothing (src/src/main.js lines 735-739)
   and band boundaries (lines 721-733)
   =================================================================== -/

/-- One exponential smoothing step,
`this.bass = this.bass * s + rawBass * (1 - s)`. -/
def smoothStep (a prev raw : ℚ) : ℚ := prev * a + raw * (1 - a)

/-- Iterated smoothing of a sequence of raw band values. -/
def smoothRun (a x0 : ℚ) (raws : List ℚ) : ℚ :=
  raws.foldl (fun x r => smoothStep a x r) x0

/-- `const bassEnd = 7` -/
def bassEnd : ℕ := 7

/-- `const midEnd = 41` -/
def midEnd : ℕ := 41

/-- `const trebleEnd = Math.min(128, this.bufferLength)` for a spectrum of
length L. -/
def trebleEnd (L : ℕ) : ℕ := min 128 L

/-- Bin indices averaged for the bass band, `_bandAverage(0, bassEnd)`. -/
def bassRange : Finset ℕ := Finset.Ico 0 bassEnd

/-- Bin indices averaged for the mid band, `_bandAverage(bassEnd, midEnd)`. -/
def midRange : Finset ℕ := Finset.Ico bassEnd midEnd

/-- Bin indices averaged for the treble band,
`_bandAverage(midEnd, trebleEnd)`. -/
def trebleRange (L : ℕ) : Finset ℕ := Finset.Ico midEnd (trebleEnd L)

/-- All bin indices used by the three bands. -/
def bandUnion (L : ℕ) : Finset ℕ := bassRange ∪ midRange ∪ trebleRange L

/-- s is a contiguous prefix of the index interval of a length-L spectrum:
s = Ico 0 m for some m ≤ L (equivalently, for m = s.card). -/
def prefixOfSpectrum (s : Finset ℕ) (L : ℕ) : Prop :=
  s = Finset.Ico 0 s.card ∧ s.card ≤ L

/-- The band-partition property claimed for a spectrum of length L: the
three index ranges are pairwise disjoint and their union is a contiguous
prefix of the spectrum indices. -/
def bandPartitionClaim (L : ℕ) : Prop :=
  (bassRange ∩ midRange = ∅ ∧ bassRange ∩ trebleRange L = ∅ ∧
   midRange ∩ trebleRange L = ∅) ∧
  prefixOfSpectrum (bandUnion L) L

instance (L : ℕ) : Decidable (bandPartitionClaim L) := by
  unfold bandPartitionClaim prefixOfSpectrum; infer_instance

/- ===================================================================
   ParticleSystem (src/src/ParticleSystem.js): the scalar morphTarget
   state machine of update (lines 414-466) and toggleMorph.
   The class body defines toggleMorph and setMorphSpeed twice; by
   JavaScript class semantics the later definitions (lines 401-412) are
   the ones installed on the prototype, so the effective toggleMorph is
   `this.morphDirection *= -1` and the effective setMorphSpeed writes
   `this.morphSpeed`.  Consequently `this.params.morphSpeed` is
   permanently undefined: the constructor's params object (lines 138-145)
   has no morphSpeed key and its only writer, the first setMorphSpeed
   (lines 356-358), is shadowed.  In JavaScript arithmetic, undefined
   coerces to NaN, NaN propagates through +, *, Math.min and Math.max,
   and every NaN comparison is false; morphTarget can therefore hold NaN,
   so it is modelled as a JavaScript number (JSNum) rather than a
   rational.
   =================================================================== -/

/-- A JavaScript number: either NaN or an (exactly represented) numeric
value. -/
inductive JSNum where
  | nan : JSNum
  | num : ℚ → JSNum
deriving DecidableEq

/-- JavaScript +: NaN absorbs. -/
def jsAdd : JSNum → JSNum → JSNum
  | JSNum.num a, JSNum.num b => JSNum.num (a + b)
  | _, _ => JSNum.nan

/-- JavaScript *: NaN absorbs. -/
def jsMul : JSNum → JSNum → JSNum
  | JSNum.num a, JSNum.num b => JSNum.num (a * b)
  | _, _ => JSNum.nan

/-- JavaScript >=: false whenever an operand is NaN. -/
def jsGe : JSNum → JSNum → Bool
  | JSNum.num a, JSNum.num b => decide (a ≥ b)
  | _, _ => false

/-- JavaScript <=: false whenever an operand is NaN. -/
def jsLe : JSNum → JSNum → Bool
  | JSNum.num a, JSNum.num b => decide (a ≤ b)
  | _, _ => false

/-- JavaScript <: false whenever an operand is NaN. -/
def jsLt : JSNum → JSNum → Bool
  | JSNum.num a, JSNum.num b => decide (a < b)
  | _, _ => false

/-- JavaScript >: false whenever an operand is NaN. -/
def jsGt : JSNum → JSNum → Bool
  | JSNum.num a, JSNum.num b => decide (a > b)
  | _, _ => false

/-- Math.min: NaN if an operand is NaN. -/
def jsMin : JSNum → JSNum → JSNum
  | JSNum.num a, JSNum.num b => JSNum.num (min a b)
  | _, _ => JSNum.nan

/-- Math.max: NaN if an operand is NaN. -/
def jsMax : JSNum → JSNum → JSNum
  | JSNum.num a, JSNum.num b => JSNum.num (max a b)
  | _, _ => JSNum.nan

namespace PSJS

/-- The scalar morph state of ParticleSystem.js together with the
configuration fields its update logic reads.  morphTarget is a JavaScript
number because the undefined params.morphSpeed makes it NaN (see the
section comment); the other numeric fields are always ordinary numbers. -/
structure MorphState where
  morphTarget : JSNum
  morphDirection : ℤ
  morphPauseFrames : ℤ
  morphSpeed : ℚ
  paramsAutoMorph : Bool
  autoMorphOnBeat : Bool
  hasModel : Bool
deriving DecidableEq

/-- The value read for `this.params.morphSpeed`: undefined, which behaves
as NaN in the arithmetic of line 423 (params never has a morphSpeed key;
the only assignment to it, the first setMorphSpeed, is shadowed by the
later duplicate that writes this.morphSpeed instead). -/
def paramsMorphSpeed : JSNum := JSNum.nan

/-- The per-frame inputs the morph logic reads: audioData.isBeat,
audioData.beat (read on line 444; the caller in main.js passes isBeat but
no beat field, so in this program beatField is always false) and the two
Math.random() draws of the auto-morph branches. -/
structure MorphInput where
  isBeat : Bool
  beatField : Bool
  rnd1 : ℚ
  rnd2 : ℚ
deriving DecidableEq

/-- The effective toggleMorph (lines 407-409): `this.morphDirection *= -1`. -/
def toggleMorph (s : MorphState) : MorphState :=
  { s with morphDirection := s.morphDirection * (-1) }

/-- The shadowed first definition of toggleMorph (lines 348-354): if the
morph factor is at least 0.5 head toward scatter (direction -1), else
toward the model (direction 1).  Never installed on the prototype. -/
def toggleMorphByPosition (s : MorphState) : MorphState :=
  { s with morphDirection :=
      if jsGe s.morphTarget (JSNum.num (1/2)) then -1 else 1 }

/-- The morphTarget / morphDirection / morphPauseFrames updates performed
by one call to ParticleSystem.update (lines 421-466), before the particle
loop (the loop reads but never writes these fields):
1. if morphDirection is nonzero, advance morphTarget by
   morphDirection * params.morphSpeed — with params.morphSpeed undefined
   this yields NaN — and snap to a bound, zeroing the direction there;
   the NaN comparisons are both false, so neither bound is taken
   (lines 422-431);
2. the params.autoMorph beat / random toggles (lines 433-441), each a call
   to the effective toggleMorph;
3. the autoMorphOnBeat block keyed on audioData.beat with a random gate and
   a 60-frame pause (lines 451-458), then the pause decrement;
4. if modelPositions is loaded, advance morphTarget by
   morphDirection * morphSpeed and clamp to [0,1] with
   Math.max(0, Math.min(1, value)), which propagates NaN; else force it
   to 0 (lines 461-466). -/
def updateMorph (s : MorphState) (a : MorphInput) : MorphState :=
  let step1 : JSNum × ℤ :=
    if s.morphDirection ≠ 0 then
      let m := jsAdd s.morphTarget
        (jsMul (JSNum.num (s.morphDirection : ℚ)) paramsMorphSpeed)
      if jsGe m (JSNum.num 1) then (JSNum.num 1, 0)
      else if jsLe m (JSNum.num 0) then (JSNum.num 0, 0)
      else (m, s.morphDirection)
    else (s.morphTarget, s.morphDirection)
  let mt1 := step1.1
  let dir1 := step1.2
  let dir2 :=
    if s.paramsAutoMorph && a.isBeat && jsLt mt1 (JSNum.num (1/10)) then
      dir1 * (-1)
    else if s.paramsAutoMorph && jsGt mt1 (JSNum.num (9/10)) &&
        decide (a.rnd1 < 1/100) then
      dir1 * (-1)
    else dir1
  let step3 : ℤ × ℤ :=
    if s.autoMorphOnBeat && a.beatField && decide (s.morphPauseFrames ≤ 0) then
      if a.rnd2 > 7/10 then (dir2 * (-1), 60) else (dir2, s.morphPauseFrames)
    else (dir2, s.morphPauseFrames)
  let dir3 := step3.1
  let pause1 := step3.2
  let pause2 := if pause1 > 0 then pause1 - 1 else pause1
  let mt2 :=
    if s.hasModel then
      jsMax (JSNum.num 0) (jsMin (JSNum.num 1)
        (jsAdd mt1 (jsMul (JSNum.num (dir3 : ℚ)) (JSNum.num s.morphSpeed))))
    else JSNum.num 0
  { s with morphTarget := mt2, morphDirection := dir3, morphPauseFrames := pause2 }

/-- The constructor state (lines 169-174): morphTarget = 0,
morphSpeed = 0.02, autoMorphOnBeat = true, morphDirection = -1,
morphPauseFrames = 0; params.autoMorph = false (line 144); no model
loaded. -/
def initState : MorphState :=
  { morphTarget := JSNum.num 0, morphDirection := -1, morphPauseFrames := 0
    morphSpeed := 1/50, paramsAutoMorph := false
    autoMorphOnBeat := true, hasModel := false }

/-- A state with no model loaded, mid-transition direction +1: reachable
from initState by one toggleMorph. -/
def msNoModel : MorphState :=
  { morphTarget := JSNum.num 0, morphDirection := 1, morphPauseFrames := 0
    morphSpeed := 1/50, paramsAutoMorph := false
    autoMorphOnBeat := true, hasModel := false }

/-- The state right after setModel with a nonempty model (lines 298-299):
morphTarget = 0.01, morphDirection = 1, a model loaded. -/
def msModel : MorphState :=
  { morphTarget := JSNum.num (1/100), morphDirection := 1
    morphPauseFrames := 0, morphSpeed := 1/50, paramsAutoMorph := false
    autoMorphOnBeat := true, hasModel := true }

/-- A quiet frame: no beat, random draws that fire no optional branch. -/
def quietInput : MorphInput :=
  { isBeat := false, beatField := false, rnd1 := 1, rnd2 := 0 }

end PSJS

/- ===================================================================
   ParticleSystem (src/unnamed/part_000, shader version): the inline
   Perlin noise (noise3D and its helpers), _buildTargetPositions and the
   per-frame update.
   =================================================================== -/

namespace Part000

/-- The permutation base table p0 of the inline noise implementation.
The source stores p0 twice in a 512-entry array _p and masks with & 255
when building _perm; since every entry is below 256 the mask is the
identity, so _perm[i] = p0[i mod 256] for every i < 512. -/
def permTable : List ℕ :=
  [151, 160, 137, 91, 90, 15, 131, 13, 201, 95, 96, 53, 194, 233, 7, 225, 140,
   36, 103, 30, 69, 142, 8, 99, 37, 240, 21, 10, 23, 190, 6, 148, 247, 120,
   234, 75, 0, 26, 197, 62, 94, 252, 219, 203, 117, 35, 11, 32, 57, 177, 33,
   88, 237, 149, 56, 87, 174, 20, 125, 136, 171, 168, 68, 175, 74, 165, 71,
   134, 139, 48, 27, 166, 77, 146, 158, 231, 83, 111, 229, 122, 60, 211, 133,
   230, 220, 105, 92, 41, 55, 46, 245, 40, 244, 102, 143, 54, 65, 25, 63, 161,
   1, 216, 80, 73, 209, 76, 132, 187, 208, 89, 18, 169, 200, 196, 135, 130,
   116, 188, 159, 86, 164, 100, 109, 198, 173, 186, 3, 64, 52, 217, 226, 250,
   124, 123, 5, 202, 38, 147, 118, 126, 255, 82, 85, 212, 207, 206, 59, 227,
   47, 16, 58, 17, 182, 189, 28, 42, 223, 183, 170, 213, 119, 248, 152, 2, 44,
   154, 163, 70, 221, 153, 101, 155, 167, 43, 172, 9, 129, 22, 39, 253, 19, 98,
   108, 110, 79, 113, 224, 232, 178, 185, 112, 104, 218, 246, 97, 228, 251, 34,
   242, 193, 238, 210, 144, 12, 191, 179, 162, 241, 81, 51, 145, 235, 249, 14,
   239, 107, 49, 192, 214, 31, 181, 199, 106, 157, 184, 84, 204, 176, 115, 121,
   50, 45, 127, 4, 150, 254, 138, 236, 205, 93, 222, 114, 67, 29, 24, 72, 243,
   141, 128, 195, 78, 66, 215, 61, 156, 180]

/-- _perm lookup: _perm[i] = p0[i mod 256]. -/
def perm (i : ℕ) : ℕ := permTable.getD (i % 256) 0

/-- `_fade(t) = t*t*t*(t*(t*6-15)+10)`. -/
def fade (t : ℚ) : ℚ := t * t * t * (t * (t * 6 - 15) + 10)

/-- `_lerp(a, b, t) = a + t*(b-a)`. -/
def lerpN (a b t : ℚ) : ℚ := a + t * (b - a)

/-- `_grad3(hash, x, y, z)`. -/
def grad3 (hash : ℕ) (x y z : ℚ) : ℚ :=
  let h := hash &&& 15
  let u := if h < 8 then x else y
  let v := if h < 4 then y else if h = 12 ∨ h = 14 then x else z
  (if h &&& 1 = 0 then u else -u) + (if h &&& 2 = 0 then v else -v)

/-- The fractional part x - Math.floor(x). -/
def fract (q : ℚ) : ℚ := q - (Int.floor q : ℚ)

/-- The inline Perlin noise3D(x, y, z).  `Math.floor(x) & 255` is the
integer floor reduced mod 256 (JavaScript's & operates on the two's
complement int32, which agrees with mod 256 for the magnitudes used
here). -/
def noise3D (x y z : ℚ) : ℚ :=
  let X : ℕ := (Int.floor x % 256).toNat
  let Y : ℕ := (Int.floor y % 256).toNat
  let Z : ℕ := (Int.floor z % 256).toNat
  let xf := fract x
  let yf := fract y
  let zf := fract z
  let u := fade xf
  let v := fade yf
  let w := fade zf
  let A := perm X + Y
  let AA := perm A + Z
  let AB := perm (A + 1) + Z
  let B := perm (X + 1) + Y
  let BA := perm B + Z
  let BB := perm (B + 1) + Z
  lerpN
    (lerpN
      (lerpN (grad3 (perm AA) xf yf zf) (grad3 (perm BA) (xf - 1) yf zf) u)
      (lerpN (grad3 (perm AB) xf (yf - 1) zf)
        (grad3 (perm BB) (xf - 1) (yf - 1) zf) u)
      v)
    (lerpN
      (lerpN (grad3 (perm (AA + 1)) xf yf (zf - 1))
        (grad3 (perm (BA + 1)) (xf - 1) yf (zf - 1)) u)
      (lerpN (grad3 (perm (AB + 1)) xf (yf - 1) (zf - 1))
        (grad3 (perm (BB + 1)) (xf - 1) (yf - 1) (zf - 1)) u)
      v)
    w

/-- A 3-component vector of rationals (one particle's x, y, z triple). -/
structure V3 where
  x : ℚ
  y : ℚ
  z : ℚ
deriving DecidableEq

/-- The state of the shader-based ParticleSystem: the per-particle arrays
(flattened triples are modelled as lists of V3, sizes and morph factors as
lists of ℚ, modelVertices kept flat as in the source), the morph state
machine fields, and the running clock. -/
structure PSState where
  count : ℕ
  positions : List V3
  scatterPositions : List V3
  targetPositions : List V3
  colors : List V3
  originalColors : List V3
  sizes : List ℚ
  morphs : List ℚ
  velocities : List V3
  modelVertices : List ℚ
  morphTarget : ℚ
  morphSpeed : ℚ
  autoMorphOnBeat : Bool
  morphDirection : ℤ
  morphPauseFrames : ℤ
  time : ℚ
  rotationY : ℚ
deriving DecidableEq

/-- The audioData argument of update, destructured on lines 1012-1023,
plus the stream of Math.random() draws consumed by the size jitter
(one draw per particle per frame). -/
structure AudioData where
  audioLevel : ℚ
  frequencyData : Option (List ℚ)
  bass : ℚ
  mid : ℚ
  treble : ℚ
  isBeat : Bool
  reactivity : ℚ
  attenuation : ℚ
  turbulence : ℚ
  bloomIntensity : ℚ
  rnd : ℕ → ℚ

/-- toggleMorph (lines 1001-1003): `this.morphDirection *= -1`. -/
def toggleMorph (s : PSState) : PSState :=
  { s with morphDirection := s.morphDirection * (-1) }

/-- _buildTargetPositions (lines 927-950): returns immediately when the
collected model vertex list is empty; otherwise resamples every target
triple from a random vertex with jitter 0.03.  The Math.random() draws are
supplied as a stream (four draws per particle: vertex pick, then the three
jitter components). -/
def buildTargetPositions (s : PSState) (rnd : ℕ → ℚ) : PSState :=
  if s.modelVertices.length = 0 then s
  else
    let vertCount := s.modelVertices.length / 3
    let jitter : ℚ := 3/100
    { s with targetPositions := (List.range s.count).map (fun i =>
        let vi := (Int.floor (rnd (4*i) * (vertCount : ℚ))).toNat
        { x := s.modelVertices.getD (vi*3) 0 + (rnd (4*i+1) - 1/2) * jitter
          y := s.modelVertices.getD (vi*3+1) 0 + (rnd (4*i+2) - 1/2) * jitter
          z := s.modelVertices.getD (vi*3+2) 0 + (rnd (4*i+3) - 1/2) * jitter }) }

/-- One call to update(audioData) (lines 1009-1151).
Order of effects, as in the source: advance the clock by 0.016; the
beat-triggered morph toggle with its 15-frame pause and the pause
decrement; then the per-particle loop writing morph factors, scatter
positions (with the soft boundary pull past radius 8; the source compares
Math.sqrt of the squared distance against 8, modelled equivalently as
comparing the squared distance against 64), positions, colors (frequency
boost capped at 1.5, else attenuation toward originalColors) and sizes;
finally the slow global rotation.  originalColors, targetPositions and
velocities are only read. -/
def update (s : PSState) (a : AudioData) : PSState :=
  let time := s.time + 2/125
  let toggled := a.isBeat && s.autoMorphOnBeat && decide (s.morphPauseFrames ≤ 0)
  let dir := if toggled then s.morphDirection * (-1) else s.morphDirection
  let pause0 : ℤ := if toggled then 15 else s.morphPauseFrames
  let pause := if pause0 > 0 then pause0 - 1 else pause0
  let normalizedAudio := a.audioLevel / 255
  let morphGoal : ℚ := if dir > 0 then 1 else 0
  let noiseScale : ℚ := 2/5
  let timeScale : ℚ := 3/10
  let turbulenceStrength := a.turbulence * (1 + a.treble * a.reactivity * 2)
  let newScatter := (List.range s.count).map (fun i =>
    let sp := s.scatterPositions.getD i ⟨0, 0, 0⟩
    let vel := s.velocities.getD i ⟨0, 0, 0⟩
    let nx := noise3D (sp.x * noiseScale + time * timeScale) (sp.y * noiseScale)
      (sp.z * noiseScale) * turbulenceStrength * (1/100)
    let ny := noise3D (sp.x * noiseScale) (sp.y * noiseScale + time * timeScale)
      (sp.z * noiseScale) * turbulenceStrength * (1/100)
    let nz := noise3D (sp.x * noiseScale) (sp.y * noiseScale)
      (sp.z * noiseScale + time * timeScale) * turbulenceStrength * (1/100)
    let p : V3 := ⟨sp.x + vel.x + nx, sp.y + vel.y + ny, sp.z + vel.z + nz⟩
    if p.x * p.x + p.y * p.y + p.z * p.z > 64 then
      ⟨p.x * (1 - 1/100), p.y * (1 - 1/100), p.z * (1 - 1/100)⟩
    else p)
  let newMorphs := (List.range s.count).map (fun i =>
    let m := s.morphs.getD i 0
    m + (morphGoal - m) * s.morphSpeed)
  let newColors := (List.range s.count).map (fun i =>
    let c := s.colors.getD i ⟨0, 0, 0⟩
    let oc := s.originalColors.getD i ⟨0, 0, 0⟩
    match a.frequencyData with
    | some fd =>
        let freqIndex := (Int.floor ((i : ℚ) / (s.count : ℚ) * (fd.length : ℚ))).toNat
        let freqValue := fd.getD freqIndex 0 / 255
        let boost := 1 + freqValue * a.reactivity * (3/5) + a.mid * a.reactivity * (2/5)
        ⟨min (oc.x * boost) (3/2), min (oc.y * boost) (3/2), min (oc.z * boost) (3/2)⟩
    | none =>
        ⟨c.x * a.attenuation + oc.x * (1 - a.attenuation),
         c.y * a.attenuation + oc.y * (1 - a.attenuation),
         c.z * a.attenuation + oc.z * (1 - a.attenuation)⟩)
  let newSizes := (List.range s.count).map (fun i =>
    (7/10 + a.rnd i * (1/20)) * (1 + a.bass * a.reactivity * (4/5)))
  { s with
    time := time
    morphDirection := dir
    morphPauseFrames := pause
    scatterPositions := newScatter
    positions := newScatter
    morphs := newMorphs
    colors := newColors
    sizes := newSizes
    rotationY := s.rotationY + (1/1250) * (1 + normalizedAudio * (1/2)) }

/-- Run update over a list of per-frame inputs. -/
def runUpdates (s : PSState) (l : List AudioData) : PSState :=
  l.foldl update s

/-- A one-particle state at the origin with morph direction +1 and a given
morph speed (reachable from the constructor state by one toggleMorph). -/
def psStateOne (sp : ℚ) : PSState :=
  { count := 1
    positions := [⟨0, 0, 0⟩]
    scatterPositions := [⟨0, 0, 0⟩]
    targetPositions := [⟨0, 0, 0⟩]
    colors := [⟨0, 0, 0⟩]
    originalColors := [⟨0, 0, 0⟩]
    sizes := [1]
    morphs := [0]
    velocities := [⟨0, 0, 0⟩]
    modelVertices := []
    morphTarget := 0
    morphSpeed := sp
    autoMorphOnBeat := false
    morphDirection := 1
    morphPauseFrames := 0
    time := 0
    rotationY := 0 }

/-- A silent frame: no audio energy, no frequency data, no beat, default
settings, a constant random stream. -/
def silentAudio : AudioData :=
  { audioLevel := 0, frequencyData := none, bass := 0, mid := 0, treble := 0
    isBeat := false, reactivity := 1, attenuation := 19/20, turbulence := 0
    bloomIntensity := 1, rnd := fun _ => 0 }

end Part000

/- ===================================================================
   curlNoise (src/src/ParticleSystem.js lines 54-77).  The noise source
   is the external simplex-noise package, so the evaluation is
   parametrized over an arbitrary scalar field.  Vector3.normalize in
   three.js is divideScalar(this.length() || 1): a vector of exactly
   zero length is divided by 1, every other vector by its length.
   Lengths involve a square root, so this section is modelled over ℝ.
   =================================================================== -/

/-- A 3-component real vector (three.js Vector3). -/
@[ext]
structure Vec3 where
  x : ℝ
  y : ℝ
  z : ℝ

/-- The zero vector. -/
def vzero : Vec3 := ⟨0, 0, 0⟩

noncomputable section

/-- Vector3.length(): sqrt(x*x + y*y + z*z). -/
def vlength (v : Vec3) : ℝ := Real.sqrt (v.x * v.x + v.y * v.y + v.z * v.z)

/-- Vector3.divideScalar(s): componentwise division. -/
def vdivScalar (v : Vec3) (s : ℝ) : Vec3 := ⟨v.x / s, v.y / s, v.z / s⟩

open Classical in
/-- Vector3.normalize(): divideScalar(length() || 1). -/
def vnormalize (v : Vec3) : Vec3 :=
  vdivScalar v (if vlength v = 0 then 1 else vlength v)

/-- The un-normalized finite-difference curl vector of curlNoise: six
evaluations of the scalar field at offset e = 0.1 along each axis,
combined as (y1-y0-(z1-z0), z1-z0-(x1-x0), x1-x0-(y1-y0)). -/
def curlVec (eta : ℝ → ℝ → ℝ → ℝ) (px py pz : ℝ) : Vec3 :=
  let e : ℝ := 1/10
  let px0 := eta (px - e) py pz
  let px1 := eta (px + e) py pz
  let py0 := eta px (py - e) pz
  let py1 := eta px (py + e) pz
  let pz0 := eta px py (pz - e)
  let pz1 := eta px py (pz + e)
  ⟨py1 - py0 - (pz1 - pz0), pz1 - pz0 - (px1 - px0), px1 - px0 - (py1 - py0)⟩

/-- curlNoise(p): the finite-difference curl vector, normalized
unconditionally with Vector3.normalize. -/
def curlNoise (eta : ℝ → ℝ → ℝ → ℝ) (px py pz : ℝ) : Vec3 :=
  vnormalize (curlVec eta px py pz)

end

/-- A simple concrete scalar field (the identity on the y coordinate),
used to evaluate curlNoise at a point with a nonzero curl vector. -/
def etaY : ℝ → ℝ → ℝ → ℝ := fun _ y _ => y

/- ===================================================================
   Theorems
   =================================================================== -/

/-- C10: one call to ParticleSystem.update (part_000) writes only the
position, scatter-position, current-color, size and morph-factor buffers;
the originalColors, targetPositions and velocities arrays are unchanged,
so the attenuation baseline, the morph targets and the per-particle drift
vectors are stable across frames between reconfigurations. -/
theorem update_frame_condition (s : Part000.PSState) (a : Part000.AudioData) :
    (Part000.update s a).originalColors = s.originalColors ∧
    (Part000.update s a).targetPositions = s.targetPositions ∧
    (Part000.update s a).velocities = s.velocities :=
  ⟨rfl, rfl, rfl⟩

/-- C3: on a frame processed while audio is playing, _detectBeat sets the
beat flag to true exactly when all three conditions hold (energy above the
adaptive threshold max(beatThreshold, mean(history) * 1.4), energy above
the decaying last-beat-energy tracker, elapsed time since the last
signaled beat above the minimum refractory interval), and to false on
every other frame. -/
theorem beat_signal_condition_iff (s : BeatState) (e t : ℚ) :
    (detectBeat s e t).isBeat = true ↔ beatSpec s e t := by
  simp [detectBeat, beatCondB, beatSpec, adaptiveThresholdOf, Bool.and_eq_true,
    decide_eq_true_eq, and_assoc]

/-- C4 (amended): on every frame, _detectBeat sets the last-beat-energy
tracker to the current frame's energy multiplied by the fixed decay factor
0.98, regardless of whether a beat fired; the triggering energy of the
last beat is not kept as a repeatedly decayed baseline. -/
theorem beat_energy_tracker_eq (s : BeatState) (e t : ℚ) :
    (detectBeat s e t).beatEnergy = e * beatDecay := rfl

/-- C4 counterexample: on the concrete sequence beatInputsB a beat fires on
frame 3 with triggering energy 1, and one frame later (energy 0) the
tracker equals 0 — not the decayed baseline 1 * 0.98 (nor 1 * 0.98^2)
that the claim predicts for the frame after a beat. -/
theorem beat_energy_decay_counterexample :
    beatAt beatInputsB 3 ∧
    (runDetect dInit beatInputsB).beatEnergy = 0 ∧
    (1 : ℚ) * beatDecay ≠ 0 ∧ (1 : ℚ) * beatDecay * beatDecay ≠ 0 := by
  with_unfolding_all decide

/-- C7 (amended): the effective toggleMorph (the later of the two
definitions in the ParticleSystem.js class body, which is the one
installed on the prototype) unconditionally negates the morph direction;
it does not inspect the current morph position. -/
theorem toggle_morph_negates (s : PSJS.MorphState) :
    (PSJS.toggleMorph s).morphDirection = -s.morphDirection :=
  mul_neg_one s.morphDirection

/-- C7 counterexample: starting from the constructor state (morphTarget 0,
direction -1), two successive toggleMorph calls leave the direction at -1,
while the claimed position-based rule (morph factor 0 < 0.5, so head
toward 1) would leave it at +1 after each call. -/
theorem toggle_morph_double_counterexample :
    (PSJS.toggleMorph (PSJS.toggleMorph PSJS.initState)).morphDirection = -1 ∧
    (PSJS.toggleMorphByPosition
      (PSJS.toggleMorphByPosition PSJS.initState)).morphDirection = 1 := by
  with_unfolding_all decide

/-- C8 (amended): if no target shape is loaded, every update tick forces
the morph scalar to 0 (the direction is left as computed by the earlier
blocks, not forced to 0); and target-shape assignment with an empty
sampled-vertex list is a no-op, so no division by an empty point set
occurs. -/
theorem no_shape_noop (ms : PSJS.MorphState) (a : PSJS.MorphInput)
    (hnm : ms.hasModel = false)
    (ps : Part000.PSState) (rnd : ℕ → ℚ) (hv : ps.modelVertices = []) :
    (PSJS.updateMorph ms a).morphTarget = JSNum.num 0 ∧
    Part000.buildTargetPositions ps rnd = ps := by
  constructor
  · simp [PSJS.updateMorph, hnm]
  · simp [Part000.buildTargetPositions, hv]

/-- C8 witness: instantiation of no_shape_noop at a concrete no-model
state and a concrete empty-vertex state. -/
theorem no_shape_noop_witness :
    PSJS.msNoModel.hasModel = false ∧
    (Part000.psStateOne (1/50)).modelVertices = [] ∧
    ((PSJS.updateMorph PSJS.msNoModel PSJS.quietInput).morphTarget
       = JSNum.num 0 ∧
     Part000.buildTargetPositions (Part000.psStateOne (1/50)) (fun _ => 0) =
       Part000.psStateOne (1/50)) :=
  ⟨by decide, by decide,
   no_shape_noop PSJS.msNoModel PSJS.quietInput (by decide)
     (Part000.psStateOne (1/50)) (fun _ => 0) (by decide)⟩

/-- C8 counterexample: in a no-model state with direction +1 (reachable
from the constructor state by one toggleMorph), an update tick leaves the
morph direction at +1; the claim says the direction is forced to 0 on
every tick when no shape is loaded. -/
theorem no_shape_direction_counterexample :
    PSJS.msNoModel.hasModel = false ∧
    (PSJS.updateMorph PSJS.msNoModel PSJS.quietInput).morphDirection = 1 ∧
    (1 : ℤ) ≠ 0 := by
  with_unfolding_all decide

/-- C2 counterexample: with morph speed 2 (the claim quantifies over every
morph speed) and direction +1, a single part_000 update tick drives the
per-particle morph factor from 0 to 2, outside [0,1]. -/
theorem morph_speed_two_escapes_counterexample :
    (Part000.update (Part000.psStateOne 2) Part000.silentAudio).morphs = [2] ∧
    ¬ ((2 : ℚ) ≤ 1) := by
  with_unfolding_all decide

/-- Helper: one smoothing step keeps [0,1] when the factor and both inputs
lie in [0,1]. -/
theorem smoothStep_mem (a x r : ℚ) (ha0 : 0 ≤ a) (ha1 : a ≤ 1)
    (hx0 : 0 ≤ x) (hx1 : x ≤ 1) (hr0 : 0 ≤ r) (hr1 : r ≤ 1) :
    0 ≤ smoothStep a x r ∧ smoothStep a x r ≤ 1 := by
  unfold smoothStep
  constructor <;> nlinarith

/-- Helper: iterated smoothing keeps [0,1]. -/
theorem smoothRun_mem (a : ℚ) (ha0 : 0 ≤ a) (ha1 : a ≤ 1) :
    ∀ (raws : List ℚ) (x : ℚ), (∀ r ∈ raws, 0 ≤ r ∧ r ≤ 1) → 0 ≤ x → x ≤ 1 →
      0 ≤ smoothRun a x raws ∧ smoothRun a x raws ≤ 1 := by
  intro raws
  induction raws with
  | nil => exact fun x _ hx0 hx1 => ⟨hx0, hx1⟩
  | cons r rest ih =>
    intro x hr hx0 hx1
    have hr' := hr r (List.mem_cons_self r rest)
    have step := smoothStep_mem a x r ha0 ha1 hx0 hx1 hr'.1 hr'.2
    exact ih (smoothStep a x r) (fun q hq => hr q (List.mem_cons_of_mem r hq))
      step.1 step.2

/-- C5: for a smoothing factor in (0,1) and raw band inputs in [0,1], the
smoothed bass, mid and treble levels, each starting from 0 and updated by
`band = band * s + raw * (1 - s)` once per tick, stay in [0,1] after any
number of ticks. -/
theorem smoothing_bounded (a : ℚ) (h0 : 0 < a) (h1 : a < 1)
    (bassRaws midRaws trebleRaws : List ℚ)
    (hb : ∀ r ∈ bassRaws, 0 ≤ r ∧ r ≤ 1)
    (hm : ∀ r ∈ midRaws, 0 ≤ r ∧ r ≤ 1)
    (ht : ∀ r ∈ trebleRaws, 0 ≤ r ∧ r ≤ 1) :
    (0 ≤ smoothRun a 0 bassRaws ∧ smoothRun a 0 bassRaws ≤ 1) ∧
    (0 ≤ smoothRun a 0 midRaws ∧ smoothRun a 0 midRaws ≤ 1) ∧
    (0 ≤ smoothRun a 0 trebleRaws ∧ smoothRun a 0 trebleRaws ≤ 1) :=
  ⟨smoothRun_mem a h0.le h1.le bassRaws 0 hb le_rfl zero_le_one,
   smoothRun_mem a h0.le h1.le midRaws 0 hm le_rfl zero_le_one,
   smoothRun_mem a h0.le h1.le trebleRaws 0 ht le_rfl zero_le_one⟩

/-- C5 witness: the code's smoothing factor 0.82 and short concrete raw
sequences in [0,1]. -/
theorem smoothing_bounded_witness :
    (0 : ℚ) < 41/50 ∧ (41/50 : ℚ) < 1 ∧
    (∀ r ∈ [(1 : ℚ), 1/2, 0], 0 ≤ r ∧ r ≤ 1) ∧
    ((0 ≤ smoothRun (41/50) 0 [(1 : ℚ), 1/2, 0] ∧
      smoothRun (41/50) 0 [(1 : ℚ), 1/2, 0] ≤ 1) ∧
     (0 ≤ smoothRun (41/50) 0 [(1 : ℚ), 1/2, 0] ∧
      smoothRun (41/50) 0 [(1 : ℚ), 1/2, 0] ≤ 1) ∧
     (0 ≤ smoothRun (41/50) 0 [(1 : ℚ), 1/2, 0] ∧
      smoothRun (41/50) 0 [(1 : ℚ), 1/2, 0] ≤ 1)) :=
  ⟨by with_unfolding_all decide, by with_unfolding_all decide,
   by with_unfolding_all decide,
   smoothing_bounded (41/50) (by with_unfolding_all decide)
     (by with_unfolding_all decide) [(1 : ℚ), 1/2, 0] [(1 : ℚ), 1/2, 0]
     [(1 : ℚ), 1/2, 0] (by with_unfolding_all decide)
     (by with_unfolding_all decide) (by with_unfolding_all decide)⟩

/-- C6 counterexample: for a spectrum of length 8 the mid range is still
the hardcoded [7,41), so the union of the three ranges is [0,41), which is
not a prefix of [0,8): the claim fails for arbitrary spectrum lengths. -/
theorem band_prefix_counterexample : ¬ bandPartitionClaim 8 := by decide

/-- C6 (amended): for any spectrum of length L ≥ 41 (the program always
uses L = 256), the bass, mid and treble bin ranges are pairwise disjoint
and their union is a contiguous prefix of [0,L); bins from min(128,L) up
are excluded but none is double-counted. -/
theorem band_partition_of_min_length (L : ℕ) (hL : 41 ≤ L) :
    bandPartitionClaim L := by
  have hM : 41 ≤ min 128 L := le_min (by norm_num) hL
  have hML : min 128 L ≤ L := min_le_right _ _
  have hunion : bandUnion L = Finset.Ico 0 (min 128 L) := by
    unfold bandUnion bassRange midRange trebleRange trebleEnd bassEnd midEnd
    rw [Finset.Ico_union_Ico_eq_Ico (by norm_num) (by norm_num),
        Finset.Ico_union_Ico_eq_Ico (by norm_num) hM]
  refine ⟨⟨by decide, ?_, ?_⟩, ?_⟩
  · ext k
    simp only [bassRange, trebleRange, bassEnd, midEnd, trebleEnd,
      Finset.mem_inter, Finset.mem_Ico, Finset.not_mem_empty, iff_false,
      not_and]
    omega
  · ext k
    simp only [midRange, trebleRange, bassEnd, midEnd, trebleEnd,
      Finset.mem_inter, Finset.mem_Ico, Finset.not_mem_empty, iff_false,
      not_and]
    omega
  · constructor
    · rw [hunion, Nat.card_Ico, Nat.sub_zero]
    · rw [hunion, Nat.card_Ico, Nat.sub_zero]
      exact hML

/-- C6 witness: instantiation of the amended band-partition theorem at the
smallest admissible spectrum length. -/
theorem band_partition_witness : 41 ≤ 41 ∧ bandPartitionClaim 41 :=
  ⟨by decide, band_partition_of_min_length 41 (by decide)⟩

/-- Helper: the per-particle morph step m + (g - m)*speed stays in [0,1]
when the speed lies in [0,1], the factor lies in [0,1] and the goal is an
endpoint. -/
theorem morphStep_mem (sp m g : ℚ) (hsp0 : 0 ≤ sp) (hsp1 : sp ≤ 1)
    (hm0 : 0 ≤ m) (hm1 : m ≤ 1) (hg : g = 0 ∨ g = 1) :
    0 ≤ m + (g - m) * sp ∧ m + (g - m) * sp ≤ 1 := by
  rcases hg with h | h <;> subst h <;> constructor <;> nlinarith

/-- Helper: one part_000 update tick keeps every per-particle morph factor
in [0,1] when the morph speed lies in [0,1]. -/
theorem update_morphs_mem (s : Part000.PSState) (a : Part000.AudioData)
    (hsp0 : 0 ≤ s.morphSpeed) (hsp1 : s.morphSpeed ≤ 1)
    (hm : ∀ m ∈ s.morphs, 0 ≤ m ∧ m ≤ 1) :
    ∀ m ∈ (Part000.update s a).morphs, 0 ≤ m ∧ m ≤ 1 := by
  intro m hmem
  simp only [Part000.update, List.mem_map, List.mem_range] at hmem
  obtain ⟨i, hi, rfl⟩ := hmem
  have hgd : 0 ≤ s.morphs.getD i 0 ∧ s.morphs.getD i 0 ≤ 1 := by
    by_cases h : i < s.morphs.length
    · have hmm : s.morphs.getD i 0 ∈ s.morphs := by
        rw [List.getD_eq_getElem s.morphs 0 h]
        exact List.getElem_mem h
      exact hm _ hmm
    · rw [List.getD_eq_default s.morphs 0 (by omega)]
      exact ⟨le_rfl, zero_le_one⟩
  exact morphStep_mem s.morphSpeed (s.morphs.getD i 0) _ hsp0 hsp1 hgd.1 hgd.2
    (Or.symm (ite_eq_or_eq _ 1 0))

/-- Helper: any number of part_000 update ticks keeps every per-particle
morph factor in [0,1] when the morph speed lies in [0,1]. -/
theorem runUpdates_morphs_mem (inputs : List Part000.AudioData) :
    ∀ (s : Part000.PSState), 0 ≤ s.morphSpeed → s.morphSpeed ≤ 1 →
      (∀ m ∈ s.morphs, 0 ≤ m ∧ m ≤ 1) →
      ∀ m ∈ (Part000.runUpdates s inputs).morphs, 0 ≤ m ∧ m ≤ 1 := by
  induction inputs with
  | nil => exact fun s _ _ hm => hm
  | cons a rest ih =>
    intro s hsp0 hsp1 hm
    exact ih (Part000.update s a) hsp0 hsp1 (update_morphs_mem s a hsp0 hsp1 hm)

/-- Helper: one ParticleSystem.js update tick with a model loaded and a
nonzero morph direction leaves morphTarget NaN: line 423 adds
morphDirection * params.morphSpeed (undefined, hence NaN) to it, the
bound checks on NaN are both false, and the clamp of step 4 propagates
the NaN. -/
theorem updateMorph_nan_of_model (s : PSJS.MorphState) (a : PSJS.MorphInput)
    (hm : s.hasModel = true) (hd : s.morphDirection ≠ 0) :
    (PSJS.updateMorph s a).morphTarget = JSNum.nan := by
  cases hmt : s.morphTarget with
  | nan =>
    simp [PSJS.updateMorph, PSJS.paramsMorphSpeed, hm, hd, hmt, jsAdd, jsMul,
      jsGe, jsLe, jsMin, jsMax]
  | num q =>
    simp [PSJS.updateMorph, PSJS.paramsMorphSpeed, hm, hd, hmt, jsAdd, jsMul,
      jsGe, jsLe, jsMin, jsMax]

/-- Helper: once morphTarget is NaN it stays NaN on every further update
tick while a model is loaded (the clamp propagates NaN regardless of the
direction). -/
theorem updateMorph_nan_persists (s : PSJS.MorphState) (a : PSJS.MorphInput)
    (hm : s.hasModel = true) (hn : s.morphTarget = JSNum.nan) :
    (PSJS.updateMorph s a).morphTarget = JSNum.nan := by
  by_cases hd : s.morphDirection ≠ 0
  · exact updateMorph_nan_of_model s a hm hd
  · simp [PSJS.updateMorph, PSJS.paramsMorphSpeed, hm, hd, hn, jsAdd, jsMul,
      jsGe, jsLe, jsMin, jsMax]

/-- C2 (amended): for every morph direction and every morph speed in
[0,1], part_000's per-particle morph factors stay in [0,1] across
arbitrarily many update ticks, starting from values in [0,1] (for a speed
above 1 a factor escapes after one tick — see the counterexample).  The
claim's other half fails for the ParticleSystem.js shared morphTarget
scalar: params.morphSpeed is permanently undefined, so any update tick
with a model loaded and a nonzero direction leaves morphTarget NaN — not
in [0,1] — and the NaN persists on every further tick while the model is
loaded. -/
theorem morph_factor_bounded_speed_le_one
    (ps : Part000.PSState) (inputs : List Part000.AudioData)
    (hsp0 : 0 ≤ ps.morphSpeed) (hsp1 : ps.morphSpeed ≤ 1)
    (hm : ∀ m ∈ ps.morphs, 0 ≤ m ∧ m ≤ 1)
    (ms : PSJS.MorphState) (a : PSJS.MorphInput)
    (hmod : ms.hasModel = true) (hdir : ms.morphDirection ≠ 0) :
    (∀ m ∈ (Part000.runUpdates ps inputs).morphs, 0 ≤ m ∧ m ≤ 1) ∧
    (PSJS.updateMorph ms a).morphTarget = JSNum.nan ∧
    (∀ (ms2 : PSJS.MorphState) (a2 : PSJS.MorphInput), ms2.hasModel = true →
      ms2.morphTarget = JSNum.nan →
      (PSJS.updateMorph ms2 a2).morphTarget = JSNum.nan) :=
  ⟨runUpdates_morphs_mem inputs ps hsp0 hsp1 hm,
   updateMorph_nan_of_model ms a hmod hdir,
   fun ms2 a2 hm2 hn2 => updateMorph_nan_persists ms2 a2 hm2 hn2⟩

/-- C2 witness: instantiation at the code's default morph speed 0.02, a
concrete one-particle part_000 state with one frame of input, and the
concrete post-setModel ParticleSystem.js state (morphTarget 0.01,
direction +1, model loaded) on which one tick yields NaN. -/
theorem morph_factor_bounded_witness :
    (0 : ℚ) ≤ (Part000.psStateOne (1/50)).morphSpeed ∧
    (Part000.psStateOne (1/50)).morphSpeed ≤ 1 ∧
    (∀ m ∈ (Part000.psStateOne (1/50)).morphs, 0 ≤ m ∧ m ≤ 1) ∧
    PSJS.msModel.hasModel = true ∧ PSJS.msModel.morphDirection ≠ 0 ∧
    ((∀ m ∈ (Part000.runUpdates (Part000.psStateOne (1/50))
        [Part000.silentAudio]).morphs, 0 ≤ m ∧ m ≤ 1) ∧
     (PSJS.updateMorph PSJS.msModel PSJS.quietInput).morphTarget = JSNum.nan ∧
     (∀ (ms2 : PSJS.MorphState) (a2 : PSJS.MorphInput), ms2.hasModel = true →
       ms2.morphTarget = JSNum.nan →
       (PSJS.updateMorph ms2 a2).morphTarget = JSNum.nan)) :=
  ⟨by with_unfolding_all decide, by with_unfolding_all decide,
   by with_unfolding_all decide, by with_unfolding_all decide,
   by with_unfolding_all decide,
   morph_factor_bounded_speed_le_one (Part000.psStateOne (1/50))
     [Part000.silentAudio] (by with_unfolding_all decide)
     (by with_unfolding_all decide) (by with_unfolding_all decide)
     PSJS.msModel PSJS.quietInput (by with_unfolding_all decide)
     (by with_unfolding_all decide)⟩

/-- Helper: when the beat condition holds, the elapsed time since the last
stored beat strictly exceeds the refractory interval. -/
theorem beatCond_interval (s : BeatState) (e t : ℚ)
    (h : beatCondB s e t = true) : t - s.lastBeatTime > beatMinInterval := by
  simp only [beatCondB, Bool.and_eq_true, decide_eq_true_eq] at h
  exact h.2

/-- Helper: lastBeatTime never decreases across a _detectBeat call. -/
theorem detectBeat_last_mono (s : BeatState) (e t : ℚ) :
    s.lastBeatTime ≤ (detectBeat s e t).lastBeatTime := by
  show s.lastBeatTime ≤ if beatCondB s e t then t else s.lastBeatTime
  by_cases h : beatCondB s e t = true
  · rw [if_pos h]
    have h2 := beatCond_interval s e t h
    have h200 : (0 : ℚ) < beatMinInterval := by norm_num [beatMinInterval]
    linarith
  · rw [if_neg h]

/-- Helper: a _detectBeat call that signals a beat stores the current time
in lastBeatTime. -/
theorem detectBeat_beat_last (s : BeatState) (e t : ℚ)
    (h : (detectBeat s e t).isBeat = true) :
    (detectBeat s e t).lastBeatTime = t := by
  have hc : beatCondB s e t = true := h
  show (if beatCondB s e t then t else s.lastBeatTime) = t
  rw [if_pos hc]

/-- Helper: the state after k+1 frames is one _detectBeat step from the
state after k frames. -/
theorem runDetect_take_succ (l : List (ℚ × ℚ)) :
    ∀ (s : BeatState) (k : ℕ), k < l.length →
      runDetect s (l.take (k + 1)) =
        detectBeat (runDetect s (l.take k)) (l.getD k (0, 0)).1
          (l.getD k (0, 0)).2 := by
  induction l with
  | nil => intro s k hk; simp at hk
  | cons p rest ih =>
    intro s k hk
    cases k with
    | zero => rfl
    | succ k =>
      have hk' : k < rest.length := by simpa using hk
      have h := ih (detectBeat s p.1 p.2) k hk'
      simpa [runDetect, List.take_succ_cons, List.getD_cons_succ] using h

/-- Helper: runDetect distributes over list append. -/
theorem runDetect_append (s : BeatState) (l1 l2 : List (ℚ × ℚ)) :
    runDetect s (l1 ++ l2) = runDetect (runDetect s l1) l2 := by
  simp [runDetect]

/-- Helper: getD after drop indexes the original list. -/
theorem getD_drop (l : List (ℚ × ℚ)) :
    ∀ (m n : ℕ), (l.drop m).getD n (0, 0) = l.getD (m + n) (0, 0) := by
  induction l with
  | nil => intro m n; simp
  | cons p rest ih =>
    intro m n
    cases m with
    | zero => simp
    | succ m =>
      have h := ih m n
      simp only [List.drop_succ_cons, Nat.succ_add, List.getD_cons_succ]
      exact h

/-- Helper: a beat signaled on frame k of a run starting from state s
occurs at a time strictly later than s.lastBeatTime plus the refractory
interval. -/
theorem runDetect_beat_time_lb (l : List (ℚ × ℚ)) :
    ∀ (s : BeatState) (k : ℕ), k < l.length →
      (runDetect s (l.take (k + 1))).isBeat = true →
      (l.getD k (0, 0)).2 > s.lastBeatTime + beatMinInterval := by
  induction l with
  | nil => intro s k hk; simp at hk
  | cons p rest ih =>
    intro s k hk hb
    cases k with
    | zero =>
      have hc : beatCondB s p.1 p.2 = true := hb
      have h3 := beatCond_interval s p.1 p.2 hc
      simp only [List.getD_cons_zero]
      linarith
    | succ k =>
      have hk' : k < rest.length := by simpa using hk
      have hb' : (runDetect (detectBeat s p.1 p.2) (rest.take (k + 1))).isBeat
          = true := hb
      have h1 := ih (detectBeat s p.1 p.2) k hk' hb'
      have h2 := detectBeat_last_mono s p.1 p.2
      simp only [List.getD_cons_succ]
      linarith

/-- C1: beat refractory invariant.  For every sequence of per-frame
(energy, time) inputs, any two frames i < j on which _detectBeat signals a
beat are separated by strictly more than the configured minimum beat
interval (beatMinInterval, 200 ms): the time of the later beat exceeds the
time of the earlier one by more than the interval. -/
theorem beat_refractory_invariant (l : List (ℚ × ℚ)) (i j : ℕ)
    (hij : i < j) (hj : j < l.length) (hbi : beatAt l i) (hbj : beatAt l j) :
    (l.getD j (0, 0)).2 - (l.getD i (0, 0)).2 > beatMinInterval := by
  have hi : i < l.length := lt_trans hij hj
  have hstep := runDetect_take_succ l dInit i hi
  have hS1beat : (runDetect dInit (l.take (i + 1))).isBeat = true := hbi
  have hlast : (runDetect dInit (l.take (i + 1))).lastBeatTime
      = (l.getD i (0, 0)).2 := by
    rw [hstep] at hS1beat ⊢
    exact detectBeat_beat_last _ _ _ hS1beat
  have hsplit : l.take (j + 1) = l.take (i + 1) ++ (l.drop (i + 1)).take (j - i) := by
    have hj1 : j + 1 = (i + 1) + (j - i) := by omega
    rw [hj1, List.take_add]
  have hbj' : (runDetect (runDetect dInit (l.take (i + 1)))
      ((l.drop (i + 1)).take (j - i))).isBeat = true := by
    have h := hbj
    unfold beatAt at h
    rw [hsplit, runDetect_append] at h
    exact h
  have hd : j - i = (j - i - 1) + 1 := by omega
  have hklen : j - i - 1 < (l.drop (i + 1)).length := by
    rw [List.length_drop]; omega
  have hlb := runDetect_beat_time_lb (l.drop (i + 1))
    (runDetect dInit (l.take (i + 1))) (j - i - 1) hklen (by rw [← hd]; exact hbj')
  have hgd : ((l.drop (i + 1)).getD (j - i - 1) (0, 0)) = l.getD j (0, 0) := by
    rw [getD_drop]
    congr 1
    omega
  rw [hgd, hlast] at hlb
  linarith

/-- C1 witness: on the concrete sequence beatInputsA, beats fire on frames
1 (t = 300) and 3 (t = 900), and 900 - 300 > 200. -/
theorem beat_refractory_invariant_witness :
    1 < 3 ∧ 3 < beatInputsA.length ∧ beatAt beatInputsA 1 ∧
    beatAt beatInputsA 3 ∧
    (beatInputsA.getD 3 (0, 0)).2 - (beatInputsA.getD 1 (0, 0)).2
      > beatMinInterval :=
  ⟨by decide, by decide, by with_unfolding_all decide,
   by with_unfolding_all decide,
   beat_refractory_invariant beatInputsA 1 3 (by decide) (by decide)
     (by with_unfolding_all decide) (by with_unfolding_all decide)⟩

/-- Helper: vector lengths are nonnegative. -/
theorem vlength_nonneg (v : Vec3) : 0 ≤ vlength v := Real.sqrt_nonneg _

/-- Helper: a vector has length 0 exactly when it is the zero vector. -/
theorem vlength_eq_zero_iff (v : Vec3) : vlength v = 0 ↔ v = vzero := by
  constructor
  · intro h
    rw [vlength, Real.sqrt_eq_zero'] at h
    have h1 := mul_self_nonneg v.x
    have h2 := mul_self_nonneg v.y
    have h3 := mul_self_nonneg v.z
    have hx : v.x * v.x = 0 := by linarith
    have hy : v.y * v.y = 0 := by linarith
    have hz : v.z * v.z = 0 := by linarith
    ext
    · exact mul_self_eq_zero.mp hx
    · exact mul_self_eq_zero.mp hy
    · exact mul_self_eq_zero.mp hz
  · intro h
    rw [h]
    simp [vlength, vzero]

/-- Helper: Vector3.normalize maps a vector to the zero vector exactly
when the vector is already zero (the `length() || 1` guard divides the
zero vector by 1). -/
theorem vnormalize_eq_zero_iff (v : Vec3) : vnormalize v = vzero ↔ v = vzero := by
  by_cases h : vlength v = 0
  · have hv := (vlength_eq_zero_iff v).mp h
    constructor
    · intro _; exact hv
    · intro _
      rw [vnormalize, if_pos h, hv]
      simp [vdivScalar, vzero]
  · constructor
    · intro he
      rw [vnormalize, if_neg h] at he
      have hx := congrArg Vec3.x he
      have hy := congrArg Vec3.y he
      have hz := congrArg Vec3.z he
      simp only [vdivScalar, vzero] at hx hy hz
      ext
      · rcases div_eq_zero_iff.mp hx with h' | h'
        · exact h'
        · exact absurd h' h
      · rcases div_eq_zero_iff.mp hy with h' | h'
        · exact h'
        · exact absurd h' h
      · rcases div_eq_zero_iff.mp hz with h' | h'
        · exact h'
        · exact absurd h' h
    · intro he
      exact absurd ((vlength_eq_zero_iff v).mpr he) h

/-- Helper: normalizing a nonzero vector yields a unit-length vector. -/
theorem vlength_vnormalize (v : Vec3) (h : v ≠ vzero) :
    vlength (vnormalize v) = 1 := by
  have hL0 : vlength v ≠ 0 := fun he => h ((vlength_eq_zero_iff v).mp he)
  have h1 := mul_self_nonneg v.x
  have h2 := mul_self_nonneg v.y
  have h3 := mul_self_nonneg v.z
  have hS : 0 ≤ v.x * v.x + v.y * v.y + v.z * v.z := by linarith
  have hsq : vlength v * vlength v = v.x * v.x + v.y * v.y + v.z * v.z :=
    Real.mul_self_sqrt hS
  show vlength (vdivScalar v (if vlength v = 0 then 1 else vlength v)) = 1
  rw [if_neg hL0]
  have hone : (vdivScalar v (vlength v)).x * (vdivScalar v (vlength v)).x +
      (vdivScalar v (vlength v)).y * (vdivScalar v (vlength v)).y +
      (vdivScalar v (vlength v)).z * (vdivScalar v (vlength v)).z = 1 := by
    simp only [vdivScalar]
    field_simp
    linarith [hsq]
  show Real.sqrt ((vdivScalar v (vlength v)).x * (vdivScalar v (vlength v)).x +
      (vdivScalar v (vlength v)).y * (vdivScalar v (vlength v)).y +
      (vdivScalar v (vlength v)).z * (vdivScalar v (vlength v)).z) = 1
  rw [hone, Real.sqrt_one]

/-- C9 (amended): for every scalar field and every input point, curlNoise
returns the zero vector exactly when the finite-difference curl vector is
exactly zero (the three.js normalize guard divides by 1 at zero length),
and any nonzero curl vector — however small — is normalized to unit
length; no division by zero occurs, but there is no epsilon clamp. -/
theorem curl_normalize_zero_iff (eta : ℝ → ℝ → ℝ → ℝ) (px py pz : ℝ) :
    (curlNoise eta px py pz = vzero ↔ curlVec eta px py pz = vzero) ∧
    (curlVec eta px py pz ≠ vzero → vlength (curlNoise eta px py pz) = 1) :=
  ⟨vnormalize_eq_zero_iff _, fun h => vlength_vnormalize _ h⟩

/-- C9 witness: at the scalar field etaY and the origin the curl vector is
(1/5, 0, -1/5) ≠ 0, and the curlNoise output has unit length. -/
theorem curl_normalize_zero_iff_witness :
    curlVec etaY 0 0 0 ≠ vzero ∧ vlength (curlNoise etaY 0 0 0) = 1 := by
  have hne : curlVec etaY 0 0 0 ≠ vzero := by
    intro he
    have hx := congrArg Vec3.x he
    simp only [curlVec, etaY, vzero] at hx
    norm_num at hx
  exact ⟨hne, (curl_normalize_zero_iff etaY 0 0 0).2 hne⟩

/-- C9 counterexample: there is no epsilon below which curlNoise clamps
to the zero vector: for every positive ε some scalar field yields a curl
vector of positive length below ε on which curlNoise still returns a
(unit-length, hence nonzero) normalized vector. -/
theorem curl_no_epsilon_clamp_counterexample :
    ¬ ∃ ε : ℝ, 0 < ε ∧ ∀ (eta : ℝ → ℝ → ℝ → ℝ) (px py pz : ℝ),
        vlength (curlVec eta px py pz) < ε → curlNoise eta px py pz = vzero := by
  rintro ⟨ε, hε, H⟩
  have hc : (0 : ℝ) < ε / 100 := by positivity
  have hv : curlVec (fun _ y _ => (ε / 100) * y) 0 0 0
      = ⟨ε / 100 / 5, 0, -(ε / 100 / 5)⟩ := by
    simp only [curlVec]
    ext <;> ring
  have hS : vlength (curlVec (fun _ y _ => (ε / 100) * y) 0 0 0) < ε := by
    rw [hv, vlength]
    rw [Real.sqrt_lt' hε]
    nlinarith
  have h0 := H (fun _ y _ => (ε / 100) * y) 0 0 0 hS
  have hvz : curlVec (fun _ y _ => (ε / 100) * y) 0 0 0 ≠ vzero := by
    rw [hv]
    intro he
    have hx := congrArg Vec3.x he
    simp only [vzero] at hx
    have : ε / 100 / 5 = 0 := hx
    linarith
  exact hvz ((vnormalize_eq_zero_iff _).mp h0)
